import Mathlib

/-!
Shallow embedding of the MovieMitra API (src/main.py, src/utils.py).

The catalog (`movies`, a pandas DataFrame with columns movie_id and title)
is modelled as a `List (Int × String)` in row order, so that positional row
index i corresponds to `movies.iloc[i]` and to the default RangeIndex used by
boolean-mask selections.  The similarity matrix is a `List (List Rat)`:
similarity scores are floating point numbers in the source and only their
ordered-field structure is relevant, so they are embedded as rationals.
Network calls to TMDB are modelled by an explicit collaborator response of
type `Except String TMDBJson`, passed in as an oracle `Int → Except String
TMDBJson`; the `except` branches of src/utils.py become the `Except.error`
cases.  HTTP failures (`raise HTTPException(status_code, detail)`) are
modelled as `Except.error` values carrying the status code and detail.
Python truthiness of optional query parameters (`if not movie_id`, `if
movie_title`) is modelled exactly: `None` and `0` are falsy for the integer
parameter, `None` and the empty string are falsy for the string parameter.
-/

/-- Model of fastapi HTTPException: a status code with a detail string. -/
structure HTTPError where
  code : Nat
  detail : String
  deriving DecidableEq

/-- Observable HTTP status of a handler result: 200 on success, else the
raised status code. -/
def statusOf {α : Type} : Except HTTPError α → Nat
  | .ok _ => 200
  | .error e => e.code

/-- Python truthiness of an `Optional[int]` query parameter: `None` and `0`
are falsy. -/
def truthyInt (o : Option Int) : Bool := o.getD 0 != 0

/-- Python truthiness of an `Optional[str]` query parameter: `None` and the
empty string are falsy. -/
def truthyStr (o : Option String) : Bool := o.getD "" != ""

/-- Model of `list(enumerate(xs))` starting at `n`: the list of
(position, value) pairs. -/
def pyEnumFrom (n : Nat) : List Rat → List (Nat × Rat)
  | [] => []
  | a :: l => (n, a) :: pyEnumFrom (n + 1) l

/-- One insertion step of a stable descending sort on (index, score) pairs,
keyed by the score: the new element goes after every already-placed element
whose score is at least its own.  This is the documented semantics of
CPython `sorted(pairs, reverse=True, key=lambda x: x[1])`: descending by
key, elements that compare equal retain their original relative order. -/
def insertDesc (a : Nat × Rat) : List (Nat × Rat) → List (Nat × Rat)
  | [] => [a]
  | b :: l => if a.2 ≤ b.2 then b :: insertDesc a l else a :: b :: l

/-- Model of `sorted(pairs, reverse=True, key=lambda x: x[1])` (src/main.py
line 220): stable insertion sort, processing the input left to right. -/
def pySortedDesc (l : List (Nat × Rat)) : List (Nat × Rat) :=
  l.foldl (fun acc a => insertDesc a acc) []

/-- Reference insertion step for the ranking the spec describes: descending
by score, and on tied scores ascending by candidate index.  An already
placed element b stays in front of the new element a exactly when b ranks
strictly higher in that lexicographic order. -/
def insertRef (a : Nat × Rat) : List (Nat × Rat) → List (Nat × Rat)
  | [] => [a]
  | b :: l =>
    if a.2 < b.2 ∨ (a.2 = b.2 ∧ b.1 < a.1) then b :: insertRef a l
    else a :: b :: l

/-- Reference sort of the spec: sort descending by score, ties in ascending
candidate-index order. -/
def refSortDesc (l : List (Nat × Rat)) : List (Nat × Rat) :=
  l.foldl (fun acc a => insertRef a acc) []

/-- The ranking order of the spec on (candidate_index, score) pairs: x ranks
no lower than y when x has the larger score, or equal score and the smaller
or equal index. -/
def scoreRank (x y : Nat × Rat) : Prop :=
  y.2 < x.2 ∨ (x.2 = y.2 ∧ x.1 ≤ y.1)

instance : DecidableRel scoreRank := fun x y => by
  unfold scoreRank; infer_instance

/-- Model of src/main.py lines 219-220 applied to one similarity row:
`sorted(list(enumerate(distances)), reverse=True, key=lambda x: x[1])[1:11]`
followed by reading off the positions `i[0]`: the Python slice `[1:11]` is
`drop 1` then `take 10`. -/
def recommendIndices (row : List Rat) : List Nat :=
  ((((pySortedDesc (pyEnumFrom 0 row)).drop 1).take 10).map Prod.fst)

/-- The core recommender on a similarity matrix: `distances =
similarity[movie_index]` (src/main.py line 219) followed by
`recommendIndices`. -/
def recommend (sim : List (List Rat)) (i : Nat) : List Nat :=
  recommendIndices (sim.getD i [])

lemma scoreRank_trans {x y z : Nat × Rat} (hxy : scoreRank x y) (hyz : scoreRank y z) :
    scoreRank x z := by
  rcases hxy with h1 | ⟨h1, h2⟩ <;> rcases hyz with h3 | ⟨h3, h4⟩
  · exact Or.inl (h3.trans h1)
  · exact Or.inl (lt_of_eq_of_lt h3.symm h1)
  · exact Or.inl (lt_of_lt_of_eq h3 h1.symm)
  · exact Or.inr ⟨h1.trans h3, h2.trans h4⟩

lemma scoreRank_antisymm {x y : Nat × Rat} (hxy : scoreRank x y) (hyx : scoreRank y x) :
    x = y := by
  rcases hxy with h1 | ⟨h1, h2⟩ <;> rcases hyx with h3 | ⟨h3, h4⟩
  · exact absurd h3 (not_lt_of_lt h1)
  · exact absurd h1 (not_lt_of_le (le_of_eq h3.symm))
  · exact absurd h3 (not_lt_of_le (le_of_eq h1.symm))
  · exact Prod.ext (Nat.le_antisymm h2 h4) h1

lemma mem_insertRef {x a : Nat × Rat} {l : List (Nat × Rat)} (hx : x ∈ insertRef a l) :
    x = a ∨ x ∈ l := by
  induction l with
  | nil => simpa [insertRef] using hx
  | cons b l ih =>
    by_cases h : a.2 < b.2 ∨ (a.2 = b.2 ∧ b.1 < a.1)
    · rw [insertRef, if_pos h] at hx
      rcases List.mem_cons.mp hx with hb | hx
      · exact Or.inr (hb ▸ List.mem_cons_self b l)
      · rcases ih hx with h1 | h1
        · exact Or.inl h1
        · exact Or.inr (List.mem_cons_of_mem b h1)
    · rw [insertRef, if_neg h] at hx
      exact List.mem_cons.mp hx

lemma insertRef_perm (a : Nat × Rat) (l : List (Nat × Rat)) :
    List.Perm (insertRef a l) (a :: l) := by
  induction l with
  | nil => simp [insertRef]
  | cons b l ih =>
    by_cases h : a.2 < b.2 ∨ (a.2 = b.2 ∧ b.1 < a.1)
    · rw [insertRef, if_pos h]
      exact (ih.cons b).trans (List.Perm.swap a b l)
    · rw [insertRef, if_neg h]

lemma foldl_insertRef_perm :
    ∀ (l acc : List (Nat × Rat)),
      List.Perm (l.foldl (fun acc a => insertRef a acc) acc) (l ++ acc) := by
  intro l
  induction l with
  | nil => intro acc; simp
  | cons a l ih =>
    intro acc
    simp only [List.foldl_cons, List.cons_append]
    exact ((ih (insertRef a acc)).trans
      (List.Perm.append_left l (insertRef_perm a acc))).trans List.perm_middle

lemma insertRef_pairwise {l : List (Nat × Rat)} (a : Nat × Rat)
    (hl : List.Pairwise scoreRank l) : List.Pairwise scoreRank (insertRef a l) := by
  induction l with
  | nil => simp [insertRef, scoreRank]
  | cons b l ih =>
    rcases List.pairwise_cons.mp hl with ⟨hb, hl2⟩
    by_cases h : a.2 < b.2 ∨ (a.2 = b.2 ∧ b.1 < a.1)
    · rw [insertRef, if_pos h]
      refine List.pairwise_cons.mpr ⟨?_, ih hl2⟩
      intro c hc
      rcases mem_insertRef hc with rfl | hc2
      · rcases h with h1 | ⟨h1, h2⟩
        · exact Or.inl h1
        · exact Or.inr ⟨h1.symm, Nat.le_of_lt h2⟩
      · exact hb c hc2
    · rw [insertRef, if_neg h]
      push_neg at h
      have hba : scoreRank a b := by
        rcases lt_or_eq_of_le h.1 with h1 | h1
        · exact Or.inl h1
        · exact Or.inr ⟨h1.symm, h.2 h1.symm⟩
      refine List.pairwise_cons.mpr ⟨?_, hl⟩
      intro c hc
      rcases List.mem_cons.mp hc with rfl | hc2
      · exact hba
      · exact scoreRank_trans hba (hb c hc2)

lemma foldl_insertRef_pairwise :
    ∀ (l acc : List (Nat × Rat)), List.Pairwise scoreRank acc →
      List.Pairwise scoreRank (l.foldl (fun acc a => insertRef a acc) acc) := by
  intro l
  induction l with
  | nil => intro acc h; exact h
  | cons a l ih =>
    intro acc h
    simp only [List.foldl_cons]
    exact ih (insertRef a acc) (insertRef_pairwise a h)

lemma refSortDesc_perm (l : List (Nat × Rat)) : List.Perm (refSortDesc l) l := by
  simpa using foldl_insertRef_perm l []

lemma refSortDesc_pairwise (l : List (Nat × Rat)) :
    List.Pairwise scoreRank (refSortDesc l) :=
  foldl_insertRef_pairwise l [] (List.Pairwise.nil)

lemma insertDesc_eq_insertRef (a : Nat × Rat) :
    ∀ (l : List (Nat × Rat)), (∀ b ∈ l, b.1 < a.1) → insertDesc a l = insertRef a l := by
  intro l
  induction l with
  | nil => intro _; rfl
  | cons b l ih =>
    intro h
    have hb : b.1 < a.1 := h b (List.mem_cons_self b l)
    have hiff : a.2 ≤ b.2 ↔ (a.2 < b.2 ∨ (a.2 = b.2 ∧ b.1 < a.1)) := by
      constructor
      · intro h1
        rcases lt_or_eq_of_le h1 with h2 | h2
        · exact Or.inl h2
        · exact Or.inr ⟨h2, hb⟩
      · rintro (h1 | ⟨h1, _⟩)
        · exact le_of_lt h1
        · exact le_of_eq h1
    by_cases hc : a.2 ≤ b.2
    · rw [insertDesc, insertRef, if_pos hc, if_pos (hiff.mp hc),
        ih (fun c hcl => h c (List.mem_cons_of_mem b hcl))]
    · rw [insertDesc, insertRef, if_neg hc, if_neg (fun hx => hc (hiff.mpr hx))]

lemma foldl_insert_eq :
    ∀ (l acc : List (Nat × Rat)),
      List.Pairwise (fun x y : Nat × Rat => x.1 < y.1) l →
      (∀ b ∈ acc, ∀ c ∈ l, b.1 < c.1) →
      l.foldl (fun acc a => insertDesc a acc) acc =
        l.foldl (fun acc a => insertRef a acc) acc := by
  intro l
  induction l with
  | nil => intro acc _ _; rfl
  | cons a l ih =>
    intro acc hp hacc
    rcases List.pairwise_cons.mp hp with ⟨ha, hp2⟩
    simp only [List.foldl_cons]
    rw [insertDesc_eq_insertRef a acc (fun b hb => hacc b hb a (List.mem_cons_self a l))]
    refine ih (insertRef a acc) hp2 ?_
    intro b hb c hcl
    rcases mem_insertRef hb with rfl | hb2
    · exact ha c hcl
    · exact hacc b hb2 c (List.mem_cons_of_mem a hcl)

lemma pyEnumFrom_length : ∀ (n : Nat) (l : List Rat), (pyEnumFrom n l).length = l.length := by
  intro n l
  induction l generalizing n with
  | nil => rfl
  | cons a l ih => simp [pyEnumFrom, ih]

lemma fst_le_of_mem_pyEnumFrom :
    ∀ {x : Nat × Rat} {n : Nat} {l : List Rat}, x ∈ pyEnumFrom n l → n ≤ x.1 := by
  intro x n l
  induction l generalizing n with
  | nil => intro h; simp [pyEnumFrom] at h
  | cons a l ih =>
    intro h
    rcases List.mem_cons.mp h with rfl | h2
    · exact Nat.le_refl n
    · exact Nat.le_of_succ_le (ih h2)

lemma pyEnumFrom_pairwise :
    ∀ (n : Nat) (l : List Rat),
      List.Pairwise (fun x y : Nat × Rat => x.1 < y.1) (pyEnumFrom n l) := by
  intro n l
  induction l generalizing n with
  | nil => exact List.Pairwise.nil
  | cons a l ih =>
    refine List.pairwise_cons.mpr ⟨?_, ih (n + 1)⟩
    intro y hy
    exact Nat.lt_of_lt_of_le (Nat.lt_succ_self n) (fst_le_of_mem_pyEnumFrom hy)

lemma sorted_perm_unique {p q : List (Nat × Rat)} (hpq : List.Perm p q)
    (hp : List.Pairwise scoreRank p) (hq : List.Pairwise scoreRank q) : p = q := by
  haveI : IsAntisymm (Nat × Rat) scoreRank := ⟨fun _ _ => scoreRank_antisymm⟩
  exact List.eq_of_perm_of_sorted hpq hp hq

lemma pySortedDesc_enum_eq (row : List Rat) :
    pySortedDesc (pyEnumFrom 0 row) = refSortDesc (pyEnumFrom 0 row) :=
  foldl_insert_eq (pyEnumFrom 0 row) [] (pyEnumFrom_pairwise 0 row)
    (fun b hb => absurd hb (List.not_mem_nil b))

/-- C1: for every in-range row index, `recommend` equals the reference
algorithm of the spec: enumerate the similarity row as (candidate_index,
score) pairs, arrange them descending by score with tied scores in ascending
candidate-index order (any list `p` that is such an arrangement), drop the
first (top-ranked) entry regardless of what it is, and return the indices of
the next entries in order — exactly `min 10 (dimension - 1)` of them. -/
theorem recommend_matches_ranking (sim : List (List Rat)) (i : Nat) (p : List (Nat × Rat))
    (hi : i < sim.length)
    (hsq : ∀ r ∈ sim, r.length = sim.length)
    (hperm : List.Perm p (pyEnumFrom 0 (sim.getD i [])))
    (hsorted : List.Pairwise scoreRank p) :
    recommend sim i = ((p.drop 1).take 10).map Prod.fst ∧
    (recommend sim i).length = min 10 (sim.length - 1) := by
  have hrowmem : sim.getD i [] ∈ sim := by
    rw [List.getD_eq_getElem sim [] hi]
    exact List.getElem_mem hi
  have hrow : (sim.getD i []).length = sim.length := hsq _ hrowmem
  have hpe := pySortedDesc_enum_eq (sim.getD i [])
  have hpermref := refSortDesc_perm (pyEnumFrom 0 (sim.getD i []))
  have hpq : p = refSortDesc (pyEnumFrom 0 (sim.getD i [])) :=
    sorted_perm_unique (hperm.trans hpermref.symm) hsorted
      (refSortDesc_pairwise (pyEnumFrom 0 (sim.getD i [])))
  constructor
  · rw [recommend, recommendIndices, hpe, hpq]
  · rw [recommend, recommendIndices, hpe]
    rw [List.length_map, List.length_take, List.length_drop,
      hpermref.length_eq, pyEnumFrom_length, hrow]

/-- The 3-movie catalog scenario of the spec: the similarity row of the
first movie is [0.9, 0.5, 0.2]. -/
def exampleSim : List (List Rat) :=
  [[mkRat 9 10, mkRat 5 10, mkRat 2 10],
   [mkRat 5 10, 1, mkRat 3 10],
   [mkRat 2 10, mkRat 3 10, 1]]

/-- The descending-score arrangement of the first example row. -/
def exampleRanked : List (Nat × Rat) :=
  [(0, mkRat 9 10), (1, mkRat 5 10), (2, mkRat 2 10)]

/-- Witness for C1 at the concrete 3-movie scenario: the hypotheses hold for
`exampleSim` at row 0, and the recommendation is the index list [1, 2]. -/
theorem recommend_matches_ranking_witness :
    0 < exampleSim.length ∧ (∀ r ∈ exampleSim, r.length = exampleSim.length) ∧
    List.Perm exampleRanked (pyEnumFrom 0 (exampleSim.getD 0 [])) ∧
    List.Pairwise scoreRank exampleRanked ∧
    (recommend exampleSim 0 = ((exampleRanked.drop 1).take 10).map Prod.fst ∧
      (recommend exampleSim 0).length = min 10 (exampleSim.length - 1)) ∧
    recommend exampleSim 0 = [1, 2] :=
  ⟨by decide, by decide, by decide, by decide,
    recommend_matches_ranking exampleSim 0 exampleRanked (by decide) (by decide)
      (by decide) (by decide),
    by decide⟩

/-- Model of the JSON object `response.json()` returned by the TMDB API
(src/utils.py): every key the code reads, with `Option` for keys that may be
absent; `field.getD d` models `data.get(key, d)`. -/
structure TMDBJson where
  adult : Option Bool := none
  backdrop_path : Option String := none
  genre_ids : Option (List Int) := none
  id : Option Int := none
  original_language : Option String := none
  original_title : Option String := none
  overview : Option String := none
  popularity : Option Rat := none
  poster_path : Option String := none
  release_date : Option String := none
  title : Option String := none
  video : Option Bool := none
  vote_average : Option Rat := none
  vote_count : Option Int := none
  deriving DecidableEq

/-- The fixed placeholder poster URL of src/utils.py. -/
def noImageUrl : String := "https://via.placeholder.com/500x750?text=No+Image"

/-- The fixed placeholder overview of src/utils.py. -/
def noDescription : String := "No description available."

/-- Model of `fetch_poster_and_overview` (src/utils.py lines 3-18).  The
collaborator interaction (`requests.get` + `.json()`) is the `resp`
argument; the `except` branch is the `Except.error` case.  Returns
(poster_url, overview, title).  The check `if data.get(poster_path)` is
Python truthiness: absent key and empty string are both falsy. -/
def fetch_poster_and_overview (resp : Except String TMDBJson) : String × String × String :=
  match resp with
  | .error _ => (noImageUrl, noDescription, "Unknown")
  | .ok data =>
    let title := data.title.getD "Unknown"
    let poster_url :=
      if truthyStr data.poster_path then
        "https://image.tmdb.org/t/p/w500/" ++ data.poster_path.getD ""
      else noImageUrl
    let overview := data.overview.getD noDescription
    (poster_url, overview, title)

/-- Model of the dictionary `fetch_tmdb_movie_data` returns, matching the
TMDBMovie pydantic model of src/main.py. -/
structure TMDBRecord where
  adult : Bool
  backdrop_path : Option String
  genre_ids : List Int
  id : Int
  original_language : String
  original_title : String
  overview : Option String
  popularity : Rat
  poster_path : Option String
  release_date : Option String
  title : String
  video : Bool
  vote_average : Rat
  vote_count : Int
  isFavourite : Option Bool
  deriving DecidableEq

/-- Model of `fetch_tmdb_movie_data` (src/utils.py lines 20-66): on a
successful collaborator response, each field is `data.get(key, default)`;
on any failure the fixed default record is returned. -/
def fetch_tmdb_movie_data (movie_id : Int) (resp : Except String TMDBJson) : TMDBRecord :=
  match resp with
  | .error _ =>
    { adult := false, backdrop_path := none, genre_ids := [], id := movie_id,
      original_language := "en", original_title := "Unknown",
      overview := some noDescription, popularity := 0, poster_path := none,
      release_date := none, title := "Unknown", video := false,
      vote_average := 0, vote_count := 0, isFavourite := none }
  | .ok data =>
    { adult := data.adult.getD false, backdrop_path := data.backdrop_path,
      genre_ids := data.genre_ids.getD [], id := data.id.getD movie_id,
      original_language := data.original_language.getD "en",
      original_title := data.original_title.getD "",
      overview := data.overview, popularity := data.popularity.getD 0,
      poster_path := data.poster_path, release_date := data.release_date,
      title := data.title.getD "Unknown", video := data.video.getD false,
      vote_average := data.vote_average.getD 0,
      vote_count := data.vote_count.getD 0, isFavourite := none }

/-- C6: on any collaborator failure the enrichment calls return the fixed
deterministic placeholder values — the fixed no-image poster URL, the fixed
no-description overview and the fixed default TMDB record — and, being
total functions into plain result types, propagate no failure. -/
theorem enrichment_absorbs_failure (e : String) (movie_id : Int) :
    fetch_poster_and_overview (.error e) =
      ("https://via.placeholder.com/500x750?text=No+Image",
        "No description available.", "Unknown") ∧
    fetch_tmdb_movie_data movie_id (.error e) =
      { adult := false, backdrop_path := none, genre_ids := [], id := movie_id,
        original_language := "en", original_title := "Unknown",
        overview := some "No description available.", popularity := 0,
        poster_path := none, release_date := none, title := "Unknown",
        video := false, vote_average := 0, vote_count := 0,
        isFavourite := none } :=
  ⟨rfl, rfl⟩

/-- Model of the module-level dictionary `watchlists: Dict[str, List[str]]`
(src/main.py line 17): a map from username to the ordered title
list of that user, `none` for a user with no entry. -/
abbrev Watchlists := String → Option (List String)

/-- The store at process start: no user has a list. -/
def emptyWatchlists : Watchlists := fun _ => none

/-- Model of `watchlists.get(username, [])` (src/main.py line 261): the
stored titles of a user, an empty sequence for an unknown user. -/
def wlTitles (w : Watchlists) (u : String) : List String := (w u).getD []

/-- Model of `add_to_watchlist` (src/main.py lines 272-279):
`watchlists.setdefault(username, [])`, then append `movie_title` unless it
is already present.  Returns the new store and the response status string
("success" for a fresh insertion, "info" for an already-present no-op). -/
def add_to_watchlist (w : Watchlists) (u t : String) : Watchlists × String :=
  let cur := (w u).getD []
  if t ∈ cur then (fun v => if v = u then some cur else w v, "info")
  else (fun v => if v = u then some (cur ++ [t]) else w v, "success")

/-- Model of `remove_from_watchlist` (src/main.py lines 281-287): when the
user has a list containing the exact title, `list.remove` (remove the first
occurrence) and report success; otherwise raise 404 with the store
untouched. -/
def remove_from_watchlist (w : Watchlists) (u t : String) :
    Watchlists × Except HTTPError String :=
  if (w u).isSome ∧ t ∈ (w u).getD [] then
    (fun v => if v = u then some (((w u).getD []).erase t) else w v, .ok "success")
  else
    (w, .error ⟨404, "not found in watchlist"⟩)

/-- C3: `add` never fails: it creates the entry for the user if absent, appends
the title at the end when not already present (exact string match, no
catalog validation) reporting "success", is a no-op reporting "info" when
already present, and is idempotent in effect — after adding the same title
twice the list is the original list with the title appended once, at its
original append position. -/
lemma add_fst_self (w : Watchlists) (u t : String) :
    (add_to_watchlist w u t).1 u =
      some (if t ∈ wlTitles w u then wlTitles w u else wlTitles w u ++ [t]) := by
  simp only [wlTitles]
  by_cases h : t ∈ (w u).getD [] <;> simp [add_to_watchlist, h]

lemma add_fst_other (w : Watchlists) (u t v : String) (hv : v ≠ u) :
    (add_to_watchlist w u t).1 v = w v := by
  by_cases h : t ∈ (w u).getD [] <;> simp [add_to_watchlist, h, hv]

lemma add_snd (w : Watchlists) (u t : String) :
    (add_to_watchlist w u t).2 = if t ∈ wlTitles w u then "info" else "success" := by
  simp only [wlTitles]
  by_cases h : t ∈ (w u).getD [] <;> simp [add_to_watchlist, h]

lemma wlTitles_add_self (w : Watchlists) (u t : String) :
    wlTitles (add_to_watchlist w u t).1 u =
      if t ∈ wlTitles w u then wlTitles w u else wlTitles w u ++ [t] := by
  rw [wlTitles, add_fst_self, Option.getD_some]

theorem add_to_watchlist_spec :
    ∀ (w : Watchlists) (u t : String),
      ((add_to_watchlist w u t).1 u).isSome = true ∧
      (t ∉ wlTitles w u →
        (add_to_watchlist w u t).1 u = some (wlTitles w u ++ [t]) ∧
        (add_to_watchlist w u t).2 = "success") ∧
      (t ∈ wlTitles w u →
        (add_to_watchlist w u t).1 u = some (wlTitles w u) ∧
        (add_to_watchlist w u t).2 = "info") ∧
      ((add_to_watchlist (add_to_watchlist w u t).1 u t).1 u =
          (add_to_watchlist w u t).1 u ∧
        (add_to_watchlist (add_to_watchlist w u t).1 u t).2 = "info") ∧
      (t ∉ wlTitles w u →
        (add_to_watchlist (add_to_watchlist w u t).1 u t).1 u =
          some (wlTitles w u ++ [t])) ∧
      (∀ v, v ≠ u → (add_to_watchlist w u t).1 v = w v) := by
  intro w u t
  have hmem2 : t ∈ wlTitles (add_to_watchlist w u t).1 u := by
    rw [wlTitles_add_self]
    by_cases h : t ∈ wlTitles w u
    · rwa [if_pos h]
    · rw [if_neg h]
      exact List.mem_append_right _ (List.mem_singleton.mpr rfl)
  have hdouble : (add_to_watchlist (add_to_watchlist w u t).1 u t).1 u =
      (add_to_watchlist w u t).1 u := by
    rw [add_fst_self, if_pos hmem2, wlTitles, add_fst_self]
    rfl
  refine ⟨?_, fun h => ?_, fun h => ?_, ⟨hdouble, ?_⟩, fun h => ?_, fun v hv => add_fst_other w u t v hv⟩
  · rw [add_fst_self]; rfl
  · exact ⟨by rw [add_fst_self, if_neg h], by rw [add_snd, if_neg h]⟩
  · exact ⟨by rw [add_fst_self, if_pos h], by rw [add_snd, if_pos h]⟩
  · rw [add_snd, if_pos hmem2]
  · rw [hdouble, add_fst_self, if_neg h]

/-- C4: `remove` deletes the exact-match title when the user has a list
containing it (reporting success), and otherwise fails with 404 NotFound —
not a silent no-op — leaving the stored list of every user unchanged. -/
theorem remove_from_watchlist_spec :
    ∀ (w : Watchlists) (u t : String),
      ((w u).isSome = true ∧ t ∈ wlTitles w u →
        (remove_from_watchlist w u t).1 u = some ((wlTitles w u).erase t) ∧
        (remove_from_watchlist w u t).2 = .ok "success" ∧
        ((wlTitles w u).count t ≤ 1 → t ∉ wlTitles (remove_from_watchlist w u t).1 u) ∧
        (∀ v, v ≠ u → (remove_from_watchlist w u t).1 v = w v)) ∧
      (¬((w u).isSome = true ∧ t ∈ wlTitles w u) →
        (remove_from_watchlist w u t).2 = .error ⟨404, "not found in watchlist"⟩ ∧
        ∀ v, (remove_from_watchlist w u t).1 v = w v) := by
  intro w u t
  by_cases hc : (w u).isSome = true ∧ t ∈ (w u).getD []
  · refine ⟨fun _ => ⟨?_, ?_, fun hcount hmem => ?_, fun v hv => ?_⟩,
      fun h => absurd hc h⟩
    · simp [remove_from_watchlist, hc, wlTitles]
    · simp [remove_from_watchlist, hc]
    · have hts : wlTitles (remove_from_watchlist w u t).1 u =
          ((w u).getD []).erase t := by
        simp [remove_from_watchlist, hc, wlTitles]
      rw [hts] at hmem
      have h1 : 0 < (((w u).getD []).erase t).count t := List.count_pos_iff.mpr hmem
      rw [List.count_erase_self] at h1
      rw [wlTitles] at hcount
      omega
    · simp [remove_from_watchlist, hc, hv]
  · refine ⟨fun h => absurd h hc, fun _ => ⟨?_, fun v => ?_⟩⟩
    · simp [remove_from_watchlist, hc]
    · simp [remove_from_watchlist, hc]

/-- Replay of a sequence of add requests against the store that is empty at
process start (src/main.py line 17). -/
def runAdds (ops : List (String × String)) : Watchlists :=
  ops.foldl (fun w p => (add_to_watchlist w p.1 p.2).1) emptyWatchlists

/-- Append each title in turn, skipping titles already present: first-add
insertion order with duplicates dropped. -/
def appendNew (acc : List String) (ts : List String) : List String :=
  ts.foldl (fun acc t => if t ∈ acc then acc else acc ++ [t]) acc

lemma wlTitles_foldl_adds :
    ∀ (ops : List (String × String)) (w : Watchlists) (u : String),
      wlTitles (ops.foldl (fun w p => (add_to_watchlist w p.1 p.2).1) w) u =
        appendNew (wlTitles w u) ((ops.filter (fun p => p.1 == u)).map Prod.snd) := by
  intro ops
  induction ops with
  | nil => intro w u; rfl
  | cons p ops ih =>
    intro w u
    simp only [List.foldl_cons]
    rw [ih]
    by_cases hp : p.1 = u
    · rw [List.filter_cons, if_pos (by simp [hp])]
      simp only [List.map_cons]
      have h1 : wlTitles (add_to_watchlist w p.1 p.2).1 u =
          if p.2 ∈ wlTitles w u then wlTitles w u else wlTitles w u ++ [p.2] := by
        rw [hp, wlTitles_add_self]
      rw [h1, appendNew, appendNew, List.foldl_cons]
    · rw [List.filter_cons, if_neg (by simp [hp])]
      have h1 : wlTitles (add_to_watchlist w p.1 p.2).1 u = wlTitles w u := by
        rw [wlTitles, wlTitles, add_fst_other w p.1 p.2 u (fun e => hp e.symm)]
      rw [h1]

/-- C5: the store-level list operation returns the stored titles verbatim —
one result per stored title — an empty sequence for a user with no list,
and, for any store reached by a sequence of adds from startup, the titles
appear in first-add insertion order. -/
theorem watchlist_list_spec :
    (∀ (w : Watchlists) (u : String),
      (w u = none → wlTitles w u = []) ∧ (∀ l, w u = some l → wlTitles w u = l)) ∧
    (∀ (ops : List (String × String)) (u : String),
      wlTitles (runAdds ops) u =
        appendNew [] ((ops.filter (fun p => p.1 == u)).map Prod.snd)) := by
  constructor
  · intro w u
    exact ⟨fun h => by rw [wlTitles, h]; rfl, fun l h => by rw [wlTitles, h]; rfl⟩
  · intro ops u
    rw [runAdds, wlTitles_foldl_adds]
    rfl

/-- Model of the Movie response shape of src/main.py. -/
structure Movie where
  movie_id : Int
  title : String
  overview : String
  poster_url : String
  deriving DecidableEq

/-- First element of a list satisfying a predicate: model of selecting rows
by a boolean mask and taking `.iloc[0]`. -/
def firstMatch {α : Type} (p : α → Bool) : List α → Option α
  | [] => none
  | a :: l => if p a then some a else firstMatch p l

lemma firstMatch_some {α : Type} {p : α → Bool} :
    ∀ {l : List α} {a : α}, firstMatch p l = some a → a ∈ l ∧ p a = true := by
  intro l
  induction l with
  | nil => intro a h; simp [firstMatch] at h
  | cons b l ih =>
    intro a h
    by_cases hb : p b
    · rw [firstMatch, if_pos hb] at h
      cases h
      exact ⟨List.mem_cons_self b l, hb⟩
    · rw [firstMatch, if_neg hb] at h
      rcases ih h with ⟨h1, h2⟩
      exact ⟨List.mem_cons_of_mem b h1, h2⟩

/-- Model of `get_watchlist` (src/main.py lines 256-270): for each stored
title, select the catalog rows whose title equals it exactly
(`movies["title"] == title`, case sensitive); skip the title when no row
matches (`continue`); otherwise enrich the first matching row and emit a
Movie. -/
def watchRow (movies : List (Int × String)) (fetch : Int → Except String TMDBJson)
    (t : String) : Option Movie :=
  (firstMatch (fun e => e.2 == t) movies).map (fun e =>
    ⟨e.1, e.2, (fetch_poster_and_overview (fetch e.1)).2.1,
      (fetch_poster_and_overview (fetch e.1)).1⟩)

/-- Model of `get_watchlist` (src/main.py lines 256-270), continued: the
response is the stored titles run through `watchRow`, unmatched titles
dropped. -/
def get_watchlist (movies : List (Int × String))
    (fetch : Int → Except String TMDBJson) (w : Watchlists) (u : String) : List Movie :=
  (wlTitles w u).filterMap (watchRow movies fetch)

/-- C10: the displayed watchlist silently omits every stored title with no
exact case-sensitive catalog match: the response is never longer than the
stored list, every response title is a stored title, and a title with no
exact catalog match never appears in the response. -/
theorem get_watchlist_skips_unmatched :
    ∀ (movies : List (Int × String)) (fetch : Int → Except String TMDBJson)
      (w : Watchlists) (u : String),
      (get_watchlist movies fetch w u).length ≤ (wlTitles w u).length ∧
      (∀ m ∈ get_watchlist movies fetch w u, m.title ∈ wlTitles w u) ∧
      (∀ t, firstMatch (fun e => e.2 == t) movies = none →
        ∀ m ∈ get_watchlist movies fetch w u, m.title ≠ t) := by
  intro movies fetch w u
  have hkey : ∀ m ∈ get_watchlist movies fetch w u,
      ∃ t ∈ wlTitles w u, m.title = t ∧
        firstMatch (fun e => e.2 == t) movies ≠ none := by
    intro m hm
    rw [get_watchlist] at hm
    rcases List.mem_filterMap.mp hm with ⟨t, ht, hf⟩
    rw [watchRow] at hf
    rcases Option.map_eq_some'.mp hf with ⟨e, he, hme⟩
    have h2 : e.2 = t := by
      have := (firstMatch_some he).2
      exact eq_of_beq this
    refine ⟨t, ht, ?_, by rw [he]; exact fun h => Option.noConfusion h⟩
    rw [← hme, ← h2]
  refine ⟨?_, ?_, ?_⟩
  · rw [get_watchlist]
    exact List.length_filterMap_le _ _
  · intro m hm
    rcases hkey m hm with ⟨t, ht, hmt, _⟩
    rw [hmt]
    exact ht
  · intro t hnone m hm hmt
    rcases hkey m hm with ⟨t2, _, hmt2, hne⟩
    have ht2 : t2 = t := hmt2.symm.trans hmt
    rw [ht2] at hne
    exact hne hnone

/-- Index of the first element satisfying a predicate: model of selecting
rows by a boolean mask and reading the first positional index
(`movie_row.index[0]` over the default RangeIndex). -/
def firstMatchIdx {α : Type} (p : α → Bool) : List α → Option Nat
  | [] => none
  | a :: l => if p a then some 0 else (firstMatchIdx p l).map (· + 1)

/-- Model of the boolean mask `movies["title"].str.lower() ==
movie_title.lower()`: case-insensitive exact title match. -/
def titleMatches (q : String) (e : Int × String) : Bool := e.2.toLower == q.toLower

/-- Model of the boolean mask `movies["movie_id"] == movie_id`. -/
def idMatches (mid : Int) (e : Int × String) : Bool := e.1 == mid

/-- Row index resolved from a title, first match in catalog order
(src/main.py lines 186-189 and 209-212). -/
def resolveByTitle (movies : List (Int × String)) (q : String) : Option Nat :=
  firstMatchIdx (titleMatches q) movies

/-- Model of `get_movie_by_title` (src/main.py lines 184-191): first
catalog row whose lower-cased title equals the lower-cased path parameter,
404 when none matches. -/
def get_movie_by_title (movies : List (Int × String))
    (fetch : Int → Except String TMDBJson) (q : String) : Except HTTPError Movie :=
  match firstMatch (titleMatches q) movies with
  | none => .error ⟨404, "Movie not found"⟩
  | some e =>
    .ok ⟨e.1, e.2, (fetch_poster_and_overview (fetch e.1)).2.1,
      (fetch_poster_and_overview (fetch e.1)).1⟩

lemma firstMatchIdx_spec {α : Type} {p : α → Bool} (d : α) :
    ∀ {l : List α} {i : Nat}, firstMatchIdx p l = some i →
      i < l.length ∧ p (l.getD i d) = true ∧ ∀ j < i, p (l.getD j d) = false := by
  intro l
  induction l with
  | nil => intro i h; simp [firstMatchIdx] at h
  | cons a l ih =>
    intro i h
    by_cases ha : p a
    · rw [firstMatchIdx, if_pos ha] at h
      cases h
      exact ⟨Nat.succ_pos _, ha, fun j hj => absurd hj (Nat.not_lt_zero j)⟩
    · rw [firstMatchIdx, if_neg ha] at h
      rcases Option.map_eq_some'.mp h with ⟨i0, hi0, rfl⟩
      rcases ih hi0 with ⟨h1, h2, h3⟩
      refine ⟨Nat.succ_lt_succ h1, h2, fun j hj => ?_⟩
      cases j with
      | zero => simpa using ha
      | succ j0 => exact h3 j0 (Nat.lt_of_succ_lt_succ hj)

lemma titleMatches_congr {q q2 : String} (hq : q2.toLower = q.toLower) :
    titleMatches q2 = titleMatches q := by
  funext e
  rw [titleMatches, titleMatches, hq]

/-- C9: title resolution is case-insensitive exact matching — a query and
any casing variant of it resolve to the same catalog row (both as a row
index and through the full /movies/title endpoint), and a resolved index is
the first matching row in catalog order. -/
theorem title_resolution_spec :
    ∀ (movies : List (Int × String)) (fetch : Int → Except String TMDBJson)
      (q q2 : String),
      (q2.toLower = q.toLower →
        resolveByTitle movies q2 = resolveByTitle movies q ∧
        get_movie_by_title movies fetch q2 = get_movie_by_title movies fetch q) ∧
      (∀ i, resolveByTitle movies q = some i →
        i < movies.length ∧ titleMatches q (movies.getD i (0, "")) = true ∧
        ∀ j < i, titleMatches q (movies.getD j (0, "")) = false) := by
  intro movies fetch q q2
  constructor
  · intro hq
    rw [resolveByTitle, resolveByTitle, get_movie_by_title, get_movie_by_title,
      titleMatches_congr hq]
    exact ⟨rfl, rfl⟩
  · intro i h
    exact firstMatchIdx_spec (0, "") h

/-- Assembly of the /recommend success payload (src/main.py lines 222-227):
for each recommended positional index, look up the catalog row
(`movies.iloc[i[0]]`, modelled as `getD`, in range whenever the matrix and
the catalog agree in size) and fetch its TMDB record. -/
def recommendPayload (movies : List (Int × String))
    (fetch : Int → Except String TMDBJson) (sim : List (List Rat)) (idx : Nat) :
    List TMDBRecord :=
  (recommend sim idx).map (fun k =>
    fetch_tmdb_movie_data (movies.getD k (0, "")).1 (fetch (movies.getD k (0, "")).1))

/-- Model of the `recommend` endpoint (src/main.py lines 196-227).  The
validation `if not movie_id and not movie_title` and the branch `if
movie_title:` use Python truthiness, modelled exactly by `truthyInt` and
`truthyStr`. -/
def recommendEndpoint (movies : List (Int × String)) (sim : List (List Rat))
    (fetch : Int → Except String TMDBJson) (movie_id : Option Int)
    (movie_title : Option String) : Except HTTPError (List TMDBRecord) :=
  if ¬ truthyInt movie_id ∧ ¬ truthyStr movie_title then
    .error ⟨400, "Provide either movie_id or movie_title"⟩
  else if truthyStr movie_title then
    match firstMatchIdx (titleMatches (movie_title.getD "")) movies with
    | none => .error ⟨404, "Movie not found"⟩
    | some idx => .ok (recommendPayload movies fetch sim idx)
  else
    match firstMatchIdx (idMatches (movie_id.getD 0)) movies with
    | none => .error ⟨404, "Movie ID not found"⟩
    | some idx => .ok (recommendPayload movies fetch sim idx)

/-- Counterexample to C2 as stated: movie_id 0 is supplied and matches a
catalog entry, yet the endpoint rejects the request with 400, because the
validation uses Python truthiness (`if not movie_id`) rather than a
presence check. -/
theorem recommend_zero_id_counterexample :
    (some (0 : Int)).isSome = true ∧
    ((0 : Int), "Zero") ∈ [((0 : Int), "Zero")] ∧
    recommendEndpoint [((0 : Int), "Zero")] [[1]] (fun _ => .error "down")
        (some 0) none =
      .error ⟨400, "Provide either movie_id or movie_title"⟩ :=
  ⟨rfl, by decide, rfl⟩

/-- C2 amended: /recommend fails with 400 exactly when the supplied
movie_id is absent or 0 and the supplied movie_title is absent or empty
(Python truthiness); otherwise a nonempty movie_title (which takes
precedence) or else the nonzero movie_id is resolved against the catalog,
failing with 404 exactly when it matches no entry and succeeding
otherwise. -/
theorem recommend_validation_amended :
    ∀ (movies : List (Int × String)) (sim : List (List Rat))
      (fetch : Int → Except String TMDBJson) (mid : Option Int)
      (mtitle : Option String),
      (statusOf (recommendEndpoint movies sim fetch mid mtitle) = 400 ↔
        mid.getD 0 = 0 ∧ mtitle.getD "" = "") ∧
      (mtitle.getD "" ≠ "" →
        recommendEndpoint movies sim fetch mid mtitle =
          match firstMatchIdx (titleMatches (mtitle.getD "")) movies with
          | none => .error ⟨404, "Movie not found"⟩
          | some idx => .ok (recommendPayload movies fetch sim idx)) ∧
      (mtitle.getD "" = "" → mid.getD 0 ≠ 0 →
        recommendEndpoint movies sim fetch mid mtitle =
          match firstMatchIdx (idMatches (mid.getD 0)) movies with
          | none => .error ⟨404, "Movie ID not found"⟩
          | some idx => .ok (recommendPayload movies fetch sim idx)) := by
  intro movies sim fetch mid mtitle
  by_cases hT : truthyStr mtitle
  · have hTne : mtitle.getD "" ≠ "" := by simpa [truthyStr] using hT
    have hne400 : ¬(¬ (truthyInt mid = true) ∧ ¬ (truthyStr mtitle = true)) :=
      fun h => h.2 hT
    refine ⟨?_, fun _ => ?_, fun hEmpty _ => absurd hEmpty hTne⟩
    · rw [recommendEndpoint, if_neg hne400, if_pos hT]
      constructor
      · intro hstatus
        exfalso
        rcases hm : firstMatchIdx (titleMatches (mtitle.getD "")) movies with _ | idx <;>
          rw [hm] at hstatus <;> simp [statusOf] at hstatus
      · rintro ⟨_, h2⟩
        exact absurd h2 hTne
    · rw [recommendEndpoint, if_neg hne400, if_pos hT]
  · have hTeq : mtitle.getD "" = "" := by
      by_contra h
      exact hT (by simpa [truthyStr] using h)
    by_cases hI : truthyInt mid
    · have hIne : mid.getD 0 ≠ 0 := by simpa [truthyInt] using hI
      have hne400 : ¬(¬ (truthyInt mid = true) ∧ ¬ (truthyStr mtitle = true)) :=
        fun h => h.1 hI
      refine ⟨?_, fun hTne => absurd hTeq hTne, fun _ _ => ?_⟩
      · rw [recommendEndpoint, if_neg hne400, if_neg hT]
        constructor
        · intro hstatus
          exfalso
          rcases hm : firstMatchIdx (idMatches (mid.getD 0)) movies with _ | idx <;>
            rw [hm] at hstatus <;> simp [statusOf] at hstatus
        · rintro ⟨h1, _⟩
          exact absurd h1 hIne
      · rw [recommendEndpoint, if_neg hne400, if_neg hT]
    · have hIeq : mid.getD 0 = 0 := by
        by_contra h
        exact hI (by simpa [truthyInt] using h)
      refine ⟨?_, fun hTne => absurd hTeq hTne, fun _ hIne => absurd hIeq hIne⟩
      rw [recommendEndpoint, if_pos ⟨hI, hT⟩]
      simp [statusOf, hIeq, hTeq]

/-- Response shapes of /movies/dropdown (src/main.py lines 94-125): an
id-title pair, or the whole catalog listing. -/
inductive DropdownResponse where
  | pair (movie_id : Int) (title : String) : DropdownResponse
  | all (entries : List (Int × String)) : DropdownResponse
  deriving DecidableEq

/-- Body of `get_dropdown_movies` inside the `try` block (src/main.py lines
106-125): `movie_id` and `movie_title` are checked with `is not None`
(presence, not truthiness); the id branch echoes the query id with the
catalog title, the title branch echoes the query title with the catalog id,
and with neither the whole catalog is listed (the `pd.notna(title)` guard is
vacuous for string-valued titles, as modelled). -/
def get_dropdown_inner (movies : List (Int × String)) (movie_id : Option Int)
    (movie_title : Option String) : Except HTTPError DropdownResponse :=
  match movie_id with
  | some mid =>
    match firstMatch (idMatches mid) movies with
    | none => .error ⟨404, "Movie ID not found"⟩
    | some e => .ok (.pair mid e.2)
  | none =>
    match movie_title with
    | some t =>
      match firstMatch (titleMatches t) movies with
      | none => .error ⟨404, "Movie not found"⟩
      | some e => .ok (.pair e.1 t)
    | none => .ok (.all movies)

/-- Model of Python `str(e)` for a starlette HTTPException: "code: detail". -/
def httpExceptionStr (e : HTTPError) : String := toString e.code ++ ": " ++ e.detail

/-- Model of `get_dropdown_movies` (src/main.py lines 94-128): the whole
body runs inside `try`, and the bare `except Exception as e` catches every
exception — including the HTTPException(404) raised by the body itself —
and re-raises it as HTTPException(500, str(e)). -/
def get_dropdown_movies (movies : List (Int × String)) (movie_id : Option Int)
    (movie_title : Option String) : Except HTTPError DropdownResponse :=
  match get_dropdown_inner movies movie_id movie_title with
  | .ok r => .ok r
  | .error e => .error ⟨500, httpExceptionStr e⟩

/-- C7 failing input: a /movies/dropdown lookup of an unknown movie_id
surfaces as a 500 server error, not as the 404 NotFound client error the
body raises — the blanket `except Exception` swallows the HTTPException. -/
theorem dropdown_unknown_id_is_500 :
    get_dropdown_movies [((1 : Int), "A")] (some 2) none =
      .error ⟨500, httpExceptionStr ⟨404, "Movie ID not found"⟩⟩ ∧
    statusOf (get_dropdown_movies [((1 : Int), "A")] (some 2) none) = 500 ∧
    statusOf (get_dropdown_movies [((1 : Int), "A")] (some 2) none) ≠ 404 :=
  ⟨rfl, rfl, by decide⟩
